import Mathlib

/-!
Shallow embedding of the tvastar/http repository: the retry transport of
src/retry/retry.go and the JSON transport and request options of the json
package.  External machine state that the claims depend on — the base
transport's per-attempt behaviour, the race between the retry timer and the
request context in the select statement, MIME parsing and JSON
unmarshalling — is passed in as explicit oracles, and the retry loop takes
fuel because the Go loop need not terminate.
-/

namespace Retry

/-- Go time.Duration (int64 nanoseconds); the claims never overflow it. -/
abbrev Duration := Int

/-- backoff.Stop of github.com/cenkalti/backoff: const Stop time.Duration = -1. -/
def backoffStop : Duration := -1

/-- Which arm of the select after an attempt is taken: the retry timer
fires, or the request context's Done channel is received. -/
inductive SelectCase where
  | timer
  | ctxDone
deriving DecidableEq, Repr

/-- The request context as the retry loop observes it: how the select
after attempt i resolves, and the value of req.Context().Err() once the
context is done. -/
structure Ctx (Err : Type) where
  select : Nat → SelectCase
  ctxErr : Err

/-- The arguments of one shouldRetry evaluation together with the delay
the backoff returned on that attempt, as recorded by a run. -/
structure TraceEntry (Res Err : Type) where
  res : Option Res
  err : Option Err
  delay : Duration
  lastAttempt : Bool
deriving DecidableEq, Repr

/-- Observable outcome of a RoundTrip run: the returned (response, error)
pair (none when the fuel ran out, i.e. the Go loop is still running), the
number of base-transport invocations, the number of NextBackOff queries,
the final state of the call-local backoff copy, and one trace entry per
attempt recording what the predicate was asked. -/
structure RunResult (σ Res Err : Type) where
  result : Option (Option Res × Option Err)
  attempts : Nat
  queries : Nat
  finalBackoff : σ
  trace : List (TraceEntry Res Err)

/-- The default predicate defined inline in Transport.RoundTrip:
return err, err != nil && !lastAttempt. -/
def defaultShouldRetry {Res Err : Type} (_res : Option Res) (err : Option Err)
    (lastAttempt : Bool) : Option Err × Bool :=
  (err, err.isSome && !lastAttempt)

/-- retry.Transport.  σ abstracts backoff.ExponentialBackOff (an external
library); its NextBackOff method is supplied separately as a state-passing
function.  The wrapped base transport is modelled by its attempt-indexed
behaviour: the (response, error) pair its RoundTrip produces on attempt i.
The source names this field Transport as well; Lean needs a distinct name. -/
structure Transport (σ Res Err : Type) where
  Backoff : σ
  ShouldRetry : Option (Option Res → Option Err → Bool → Option Err × Bool)
  baseTransport : Nat → Option Res × Option Err

/-- The predicate the loop uses: t.ShouldRetry when non-nil, else the
default one. -/
def Transport.effectiveShouldRetry {σ Res Err : Type} (t : Transport σ Res Err) :
    Option Res → Option Err → Bool → Option Err × Bool :=
  match t.ShouldRetry with
  | some f => f
  | none => defaultShouldRetry

/-- The for-loop of Transport.RoundTrip, one fuel unit per iteration.
Each iteration: call the base transport, query the backoff copy once for
the next delay, set lastAttempt := delay == backoff.Stop, evaluate the
predicate; if it answers ok = false return (res, predicate error);
otherwise arm a timer for the delay and select against the request
context: timer fired means loop again, context done means return
(res, ctx.Err()). -/
def roundTripLoop {σ Res Err : Type} (next : σ → Duration × σ)
    (pred : Option Res → Option Err → Bool → Option Err × Bool)
    (base : Nat → Option Res × Option Err) (ctx : Ctx Err) :
    Nat → Nat → σ → RunResult σ Res Err
  | 0, _, b => ⟨none, 0, 0, b, []⟩
  | fuel + 1, i, b =>
    let a := base i
    let d := next b
    let lastAttempt := d.1 == backoffStop
    let p := pred a.1 a.2 lastAttempt
    let entry : TraceEntry Res Err := ⟨a.1, a.2, d.1, lastAttempt⟩
    if p.2 then
      match ctx.select i with
      | SelectCase.ctxDone => ⟨some (a.1, some ctx.ctxErr), 1, 1, d.2, [entry]⟩
      | SelectCase.timer =>
        let r := roundTripLoop next pred base ctx fuel (i + 1) d.2
        ⟨r.result, r.attempts + 1, r.queries + 1, r.finalBackoff, entry :: r.trace⟩
    else
      ⟨some (a.1, p.1), 1, 1, d.2, [entry]⟩

/-- Transport.RoundTrip: copy := *t.Backoff, then run the loop on the
copy.  The pair also returns the transport as it stands after the call:
the source takes a value receiver and never writes through t.Backoff, so
the shared configuration comes back as it went in. -/
def Transport.RoundTrip {σ Res Err : Type} (t : Transport σ Res Err)
    (next : σ → Duration × σ) (ctx : Ctx Err) (fuel : Nat) :
    RunResult σ Res Err × Transport σ Res Err :=
  (roundTripLoop next t.effectiveShouldRetry t.baseTransport ctx fuel 0 t.Backoff, t)

/-- Each loop iteration performs exactly one base-transport invocation,
exactly one NextBackOff query and exactly one predicate evaluation, and
the lastAttempt flag it records equals (delay == backoff.Stop). -/
theorem roundTripLoop_counts {σ Res Err : Type} (next : σ → Duration × σ)
    (pred : Option Res → Option Err → Bool → Option Err × Bool)
    (base : Nat → Option Res × Option Err) (ctx : Ctx Err) :
    ∀ fuel i b,
      (roundTripLoop next pred base ctx fuel i b).queries
          = (roundTripLoop next pred base ctx fuel i b).attempts
      ∧ (roundTripLoop next pred base ctx fuel i b).trace.length
          = (roundTripLoop next pred base ctx fuel i b).attempts
      ∧ ((roundTripLoop next pred base ctx fuel i b).trace.all
          fun e => e.lastAttempt == (e.delay == backoffStop)) = true := by
  intro fuel
  induction fuel with
  | zero => intro i b; exact ⟨rfl, rfl, rfl⟩
  | succ n ih =>
    intro i b
    simp only [roundTripLoop]
    split
    · split
      · simp
      · obtain ⟨h1, h2, h3⟩ := ih (i + 1) (next b).2
        simp [h1, h2, h3]
    · simp

/-- The final state of the call-local backoff copy is the initial copy
advanced by one NextBackOff step per recorded query. -/
theorem roundTripLoop_finalBackoff {σ Res Err : Type} (next : σ → Duration × σ)
    (pred : Option Res → Option Err → Bool → Option Err × Bool)
    (base : Nat → Option Res × Option Err) (ctx : Ctx Err) :
    ∀ fuel i b,
      (roundTripLoop next pred base ctx fuel i b).finalBackoff
        = (fun s => (next s).2)^[(roundTripLoop next pred base ctx fuel i b).queries] b := by
  intro fuel
  induction fuel with
  | zero => intro i b; rfl
  | succ n ih =>
    intro i b
    simp only [roundTripLoop]
    split
    · split
      · simp
      · simp only [ih (i + 1) (next b).2, Function.iterate_succ_apply]
    · simp

/-- A backoff whose budget is exhausted: every NextBackOff call returns
Stop (an ExponentialBackOff past its MaxElapsedTime behaves this way). -/
def stopNext : Unit → Duration × Unit := fun u => (backoffStop, u)

/-- A backoff that always allows another try after a delay of 1. -/
def oneNext : Unit → Duration × Unit := fun u => ((1 : Int), u)

/-- A request context that is never cancelled: the timer always wins. -/
def quietCtx : Ctx Nat := ⟨fun _ => SelectCase.timer, 7⟩

/-- A request context whose select always resolves to the Done channel. -/
def doneCtx : Ctx Nat := ⟨fun _ => SelectCase.ctxDone, 7⟩

/-- A custom predicate that always asks to retry. -/
def retryPred : Option Nat → Option Nat → Bool → Option Nat × Bool :=
  fun _ _ _ => (none, true)

/-- A base transport that succeeds on every attempt. -/
def okBase : Nat → Option Nat × Option Nat := fun _ => (some 4, none)

/-- A base transport that fails with a nil response on every attempt. -/
def failBase : Nat → Option Nat × Option Nat := fun _ => (none, some 3)

/-- A base transport that returns both a response and an error. -/
def bothBase : Nat → Option Nat × Option Nat := fun _ => (some 0, some 1)

/-- A transport carrying retryPred over bothBase. -/
def alwaysRetryT : Transport Unit Nat Nat := ⟨(), some retryPred, bothBase⟩

/-- A transport with the default predicate over okBase. -/
def okT : Transport Unit Nat Nat := ⟨(), none, okBase⟩

/-- A transport with the default predicate over failBase. -/
def failT : Transport Unit Nat Nat := ⟨(), none, failBase⟩

/-- C1 as stated is refuted at this input: the backoff budget is exhausted
(every NextBackOff call returns Stop, so both recorded predicate
evaluations carry lastAttempt = true), the predicate answers retry on the
lastAttempt = true evaluation of attempt 0, and the loop then performs a
second base-transport invocation — the predicate's answer on the
budget-exhausted evaluation was not final. -/
theorem c1_counterexample :
    ((alwaysRetryT.RoundTrip stopNext quietCtx 2).1.trace.map
        fun e => e.lastAttempt) = [true, true]
    ∧ (alwaysRetryT.RoundTrip stopNext quietCtx 2).1.attempts = 2 :=
  ⟨rfl, rfl⟩

/-- C1 (amended): on any attempt on which the predicate answers
shouldRetry = false — in particular on an evaluation with
lastAttempt = true after backoff exhaustion, whenever it so answers — the
loop returns (that attempt's response, the predicate's error) immediately,
with no further base-transport invocation and no further backoff query. -/
theorem c1_no_retry_verdict_is_final {σ Res Err : Type} (next : σ → Duration × σ)
    (pred : Option Res → Option Err → Bool → Option Err × Bool)
    (base : Nat → Option Res × Option Err) (ctx : Ctx Err) (fuel i : Nat) (b : σ)
    (hp : (pred (base i).1 (base i).2 ((next b).1 == backoffStop)).2 = false) :
    roundTripLoop next pred base ctx (fuel + 1) i b
      = ⟨some ((base i).1, (pred (base i).1 (base i).2 ((next b).1 == backoffStop)).1),
         1, 1, (next b).2,
         [⟨(base i).1, (base i).2, (next b).1, (next b).1 == backoffStop⟩]⟩ := by
  simp [roundTripLoop, hp]

/-- Closed instance of c1_no_retry_verdict_is_final: a clean first attempt
under an exhausted backoff makes the default predicate answer false, and
the loop returns it at once. -/
theorem c1_witness :
    (defaultShouldRetry (okBase 0).1 (okBase 0).2 ((stopNext ()).1 == backoffStop)).2 = false
    ∧ roundTripLoop stopNext defaultShouldRetry okBase quietCtx 1 0 ()
        = ⟨some (some 4, none), 1, 1, (), [⟨some 4, none, backoffStop, true⟩]⟩ :=
  ⟨rfl, c1_no_retry_verdict_is_final stopNext defaultShouldRetry
    okBase quietCtx 0 0 () rfl⟩

/-- C2: when no custom ShouldRetry is supplied, the predicate RoundTrip
uses reports the raw transport error unchanged and asks for a retry
exactly when that error is non-nil and this is not the last attempt. -/
theorem c2_default_predicate {σ Res Err : Type} (t : Transport σ Res Err)
    (h : t.ShouldRetry = none) (res : Option Res) (err : Option Err)
    (lastAttempt : Bool) :
    (t.effectiveShouldRetry res err lastAttempt).1 = err
    ∧ ((t.effectiveShouldRetry res err lastAttempt).2 = true
        ↔ err ≠ none ∧ lastAttempt = false) := by
  simp only [Transport.effectiveShouldRetry, h]
  cases err <;> cases lastAttempt <;> simp [defaultShouldRetry]

/-- Closed instance of c2_default_predicate on the failing transport. -/
theorem c2_witness :
    failT.ShouldRetry = none
    ∧ ((failT.effectiveShouldRetry none (some 3) false).1 = some 3
      ∧ ((failT.effectiveShouldRetry none (some 3) false).2 = true
          ↔ some 3 ≠ none ∧ false = false)) :=
  ⟨rfl, c2_default_predicate failT rfl none (some 3) false⟩

/-- C3: in every run, each attempt queries the call-local backoff exactly
once (queries = attempts, with one trace entry per attempt) and the
lastAttempt flag handed to the predicate is true exactly when that query
returned backoff.Stop. -/
theorem c3_one_query_per_attempt {σ Res Err : Type} (t : Transport σ Res Err)
    (next : σ → Duration × σ) (ctx : Ctx Err) (fuel : Nat) :
    (t.RoundTrip next ctx fuel).1.queries = (t.RoundTrip next ctx fuel).1.attempts
    ∧ (t.RoundTrip next ctx fuel).1.trace.length
        = (t.RoundTrip next ctx fuel).1.attempts
    ∧ ((t.RoundTrip next ctx fuel).1.trace.all
        fun e => e.lastAttempt == (e.delay == backoffStop)) = true :=
  roundTripLoop_counts next t.effectiveShouldRetry t.baseTransport ctx fuel 0 t.Backoff

/-- C4: if the request context's Done channel wins the select during the
inter-attempt wait, the loop abandons the pending delay and returns
(the current attempt's response, the context's error). -/
theorem c4_cancellation_during_wait {σ Res Err : Type} (next : σ → Duration × σ)
    (pred : Option Res → Option Err → Bool → Option Err × Bool)
    (base : Nat → Option Res × Option Err) (ctx : Ctx Err) (fuel i : Nat) (b : σ)
    (hp : (pred (base i).1 (base i).2 ((next b).1 == backoffStop)).2 = true)
    (hc : ctx.select i = SelectCase.ctxDone) :
    (roundTripLoop next pred base ctx (fuel + 1) i b).result
      = some ((base i).1, some ctx.ctxErr) := by
  simp [roundTripLoop, hp, hc]

/-- Closed instance of c4_cancellation_during_wait: a failed attempt whose
wait is cancelled returns (nil response, context error 7). -/
theorem c4_witness :
    (defaultShouldRetry (failBase 0).1 (failBase 0).2 ((oneNext ()).1 == backoffStop)).2 = true
    ∧ doneCtx.select 0 = SelectCase.ctxDone
    ∧ (roundTripLoop oneNext defaultShouldRetry failBase
        doneCtx 1 0 ()).result = some (none, some 7) :=
  ⟨rfl, rfl, c4_cancellation_during_wait oneNext defaultShouldRetry
    failBase doneCtx 0 0 () rfl rfl⟩

/-- C5: once the Done channel is observed in the select, the run performs
no further base-transport invocation and no further backoff query, even
though the predicate for the current attempt asked to retry. -/
theorem c5_no_attempt_after_cancellation {σ Res Err : Type} (next : σ → Duration × σ)
    (pred : Option Res → Option Err → Bool → Option Err × Bool)
    (base : Nat → Option Res × Option Err) (ctx : Ctx Err) (fuel i : Nat) (b : σ)
    (hp : (pred (base i).1 (base i).2 ((next b).1 == backoffStop)).2 = true)
    (hc : ctx.select i = SelectCase.ctxDone) :
    (roundTripLoop next pred base ctx (fuel + 1) i b).attempts = 1
    ∧ (roundTripLoop next pred base ctx (fuel + 1) i b).queries = 1 := by
  simp [roundTripLoop, hp, hc]

/-- Closed instance of c5_no_attempt_after_cancellation: ample fuel
remains, the predicate demanded a retry, yet the cancelled wait leaves the
attempt and query counts at one. -/
theorem c5_witness :
    (retryPred (bothBase 0).1 (bothBase 0).2 ((oneNext ()).1 == backoffStop)).2 = true
    ∧ doneCtx.select 0 = SelectCase.ctxDone
    ∧ ((roundTripLoop oneNext retryPred bothBase doneCtx 5 0 ()).attempts = 1
      ∧ (roundTripLoop oneNext retryPred bothBase doneCtx 5 0 ()).queries = 1) :=
  ⟨rfl, rfl, c5_no_attempt_after_cancellation oneNext retryPred
    bothBase doneCtx 4 0 () rfl rfl⟩

/-- C6: a RoundTrip call hands back the shared transport — in particular
its configured Backoff — unchanged, and only the call-local copy,
initialised to t.Backoff, is advanced, one NextBackOff step per query. -/
theorem c6_shared_backoff_unchanged {σ Res Err : Type} (t : Transport σ Res Err)
    (next : σ → Duration × σ) (ctx : Ctx Err) (fuel : Nat) :
    (t.RoundTrip next ctx fuel).2 = t
    ∧ (t.RoundTrip next ctx fuel).1.finalBackoff
        = (fun s => (next s).2)^[(t.RoundTrip next ctx fuel).1.queries] t.Backoff :=
  ⟨rfl, roundTripLoop_finalBackoff next t.effectiveShouldRetry t.baseTransport
    ctx fuel 0 t.Backoff⟩

/-- C7: with the default predicate, a first attempt that returns no error
makes RoundTrip return exactly that attempt's (response, nil) after
exactly one base-transport invocation. -/
theorem c7_identity_on_first_success {σ Res Err : Type} (t : Transport σ Res Err)
    (next : σ → Duration × σ) (ctx : Ctx Err) (fuel : Nat)
    (hs : t.ShouldRetry = none) (hb : (t.baseTransport 0).2 = none) :
    (t.RoundTrip next ctx (fuel + 1)).1.result = some ((t.baseTransport 0).1, none)
    ∧ (t.RoundTrip next ctx (fuel + 1)).1.attempts = 1 := by
  simp [Transport.RoundTrip, roundTripLoop, Transport.effectiveShouldRetry, hs,
    defaultShouldRetry, hb]

/-- Closed instance of c7_identity_on_first_success on the succeeding
transport. -/
theorem c7_witness :
    okT.ShouldRetry = none
    ∧ (okT.baseTransport 0).2 = none
    ∧ ((okT.RoundTrip oneNext quietCtx 3).1.result = some (some 4, none)
      ∧ (okT.RoundTrip oneNext quietCtx 3).1.attempts = 1) :=
  ⟨rfl, rfl, c7_identity_on_first_success okT oneNext quietCtx 2 rfl rfl⟩

end Retry

namespace HttpJson

/-- A response body as ioutil.ReadAll observes it: the bytes readable
from the stream, and the error ReadAll reports after delivering those
bytes (none means a clean EOF). -/
structure JBody (Err : Type) where
  bytes : List UInt8
  readErr : Option Err
deriving DecidableEq

/-- http.Response as the json transport observes it: the Content-Type
header value, the body, and an untouched remainder standing for the
status, the other headers and so on. -/
structure JResponse (ρ Err : Type) where
  rest : ρ
  contentType : String
  body : JBody Err
deriving DecidableEq

/-- json.Transport: Result is the current value of the caller-supplied
destination cell the decoded body is stored into.  (The base transport's
behaviour for the one request is passed to RoundTrip directly.) -/
structure JTransport (V : Type) where
  Result : V
deriving DecidableEq

/-- json Transport.RoundTrip on the (res, err) pair the wrapped transport
produced.  parse models mime.ParseMediaType applied to the Content-Type
header (none = parse error, some ct = the parsed media type); unmarshal
models json.Unmarshal into the Result cell (new cell value, reported
error).  Returns (response, error, Result cell after the call).  On the
JSON path the body is fully read and replaced by a fresh buffer of the
bytes that were read, before the read error, if any, is checked. -/
def JTransport.RoundTrip {ρ Err V : Type} (parse : String → Option String)
    (unmarshal : List UInt8 → V → V × Option Err) (t : JTransport V)
    (res : JResponse ρ Err) (err : Option Err) :
    JResponse ρ Err × Option Err × V :=
  match err with
  | some e => (res, some e, t.Result)
  | none =>
    match parse res.contentType with
    | none => (res, none, t.Result)
    | some ct =>
      if ct = "application/json" then
        match res.body.readErr with
        | some e => ({ res with body := ⟨res.body.bytes, none⟩ }, some e, t.Result)
        | none =>
          ({ res with body := ⟨res.body.bytes, none⟩ },
           (unmarshal res.body.bytes t.Result).2,
           (unmarshal res.body.bytes t.Result).1)
      else (res, none, t.Result)

/-- url.Values: the multimap from query keys to their ordered value
lists, with the empty list for absent keys.  url.Query() and
url.Values.Encode(), the Go standard codec between this map and the raw
query string, are modelled at the Values level. -/
abbrev Values := String → List String

/-- url.Values.Add: append value to v[key]. -/
def Values.add (vs : Values) (k v : String) : Values :=
  fun k2 => if k2 = k then vs k2 ++ [v] else vs k2

/-- The inner loop of the Query option:
for _, entry := range entries { orig.Add(k, entry) }. -/
def addEntries (vs : Values) (k : String) : List String → Values
  | [] => vs
  | e :: es => addEntries (Values.add vs k e) k es

/-- The outer loop of the Query option:
for k, entries := range val { ... }.  val is the go-querystring encoding
of the structured value, a finite map presented as an association list
whose keys are pairwise distinct (it is a Go map). -/
def mergeValues (vs : Values) : List (String × List String) → Values
  | [] => vs
  | kv :: rest => mergeValues (addEntries vs kv.1 kv.2) rest

/-- http.Request as the Query option observes it: the URL's query
(already parsed to Values) plus an untouched remainder. -/
structure JRequest (ρ : Type) where
  rest : ρ
  query : Values

/-- json.Query(v) applied to a request: merge the pairs of val — the
oracle for query.Values(v) — into the request URL's query. -/
def Query {ρ : Type} (val : List (String × List String)) (req : JRequest ρ) :
    JRequest ρ :=
  { req with query := mergeValues req.query val }

/-- The value list an association list assigns to a key (first hit wins;
with pairwise-distinct keys, the unique hit). -/
def findEntries (k : String) : List (String × List String) → List String
  | [] => []
  | kv :: rest => if kv.1 = k then kv.2 else findEntries k rest

/-- Pointwise effect of the inner Add loop: the entries are appended to
the key's value list; every other key is untouched. -/
theorem addEntries_apply (k : String) :
    ∀ (es : List String) (vs : Values) (k2 : String),
      addEntries vs k es k2 = if k2 = k then vs k2 ++ es else vs k2 := by
  intro es
  induction es with
  | nil => intro vs k2; by_cases h : k2 = k <;> simp [addEntries, h]
  | cons e es ih =>
    intro vs k2
    by_cases h : k2 = k <;> simp [addEntries, ih, Values.add, h]

/-- A key absent from an association list finds no entries. -/
theorem findEntries_eq_nil {k : String} :
    ∀ {val : List (String × List String)}, k ∉ val.map Prod.fst →
      findEntries k val = [] := by
  intro val
  induction val with
  | nil => intro _; rfl
  | cons kv rest ih =>
    intro h
    simp only [List.map_cons, List.mem_cons] at h
    push_neg at h
    have h1 : kv.1 ≠ k := fun hh => h.1 hh.symm
    simp [findEntries, h1, ih h.2]

/-- Pointwise effect of the whole merge loop, for a val whose keys are
pairwise distinct (a Go map): each key's value list is the original one
with the entries of val appended. -/
theorem mergeValues_apply :
    ∀ (val : List (String × List String)) (vs : Values) (k : String),
      (val.map Prod.fst).Nodup →
      mergeValues vs val k = vs k ++ findEntries k val := by
  intro val
  induction val with
  | nil => intro vs k _; simp [mergeValues, findEntries]
  | cons kv rest ih =>
    intro vs k hnd
    simp only [List.map_cons, List.nodup_cons] at hnd
    rw [mergeValues, ih _ k hnd.2, addEntries_apply]
    by_cases h : k = kv.1
    · subst h
      have hnil : findEntries kv.1 rest = [] := findEntries_eq_nil hnd.1
      simp [findEntries, hnil]
    · have h1 : kv.1 ≠ k := fun hh => h hh.symm
      simp [findEntries, h1, h]

/-- C9: json.Query adds the URL-encoded pairs derived from the
structured value and preserves the pre-existing query: for each key the
merged query assigns the old value list with the new entries appended,
so in particular every pre-existing key/value pair is still present. -/
theorem c9_query_merges_preserving {ρ : Type} (val : List (String × List String))
    (req : JRequest ρ) (hnd : (val.map Prod.fst).Nodup) (k : String) :
    (Query val req).query k = req.query k ++ findEntries k val
    ∧ ∀ e, e ∈ req.query k → e ∈ (Query val req).query k := by
  have h := mergeValues_apply val req.query k hnd
  refine ⟨h, fun e he => ?_⟩
  rw [show (Query val req).query = mergeValues req.query val from rfl, h]
  exact List.mem_append_left _ he

/-- A pre-populated query map assigning one value to every key. -/
def cQuery : Values := fun _ => ["x"]

/-- A concrete go-querystring encoding with two distinct keys. -/
def cVal : List (String × List String) := [("a", ["1"]), ("b", ["2"])]

/-- A concrete request carrying cQuery. -/
def cReq : JRequest Nat := ⟨0, cQuery⟩

/-- Closed instance of c9_query_merges_preserving at key a. -/
theorem c9_witness :
    (cVal.map Prod.fst).Nodup
    ∧ ((Query cVal cReq).query "a" = cReq.query "a" ++ findEntries "a" cVal
      ∧ ∀ e, e ∈ cReq.query "a" → e ∈ (Query cVal cReq).query "a") :=
  ⟨by decide, c9_query_merges_preserving cVal cReq (by decide) "a"⟩

/-- C8: when the wrapped transport returns without error, the json
transport decodes into Result exactly when the parsed content type is
application/json; for every other parse outcome it returns the response
unchanged, a nil error and an untouched Result. -/
theorem c8_decode_iff_json_content_type {ρ Err V : Type}
    (parse : String → Option String) (unmarshal : List UInt8 → V → V × Option Err)
    (t : JTransport V) (res : JResponse ρ Err) :
    (parse res.contentType ≠ some "application/json" →
      JTransport.RoundTrip parse unmarshal t res none = (res, none, t.Result))
    ∧ (parse res.contentType = some "application/json" →
        res.body.readErr = none →
        JTransport.RoundTrip parse unmarshal t res none
          = ({ res with body := ⟨res.body.bytes, none⟩ },
             (unmarshal res.body.bytes t.Result).2,
             (unmarshal res.body.bytes t.Result).1)) := by
  constructor
  · intro h
    unfold JTransport.RoundTrip
    cases hp : parse res.contentType with
    | none => rfl
    | some ct =>
      have hne : ct ≠ "application/json" := by
        intro hc
        exact h (hc ▸ hp)
      simp [hne]
  · intro h hre
    simp [JTransport.RoundTrip, h, hre]

/-- A ParseMediaType oracle returning the header value unchanged. -/
def idParse : String → Option String := fun s => some s

/-- An Unmarshal oracle that stores the byte count and reports success. -/
def countUnmarshal : List UInt8 → Nat → Nat × Option Nat :=
  fun bs _ => (bs.length, none)

/-- A non-JSON response with an empty body. -/
def plainRes : JResponse Nat Nat := ⟨5, "text/plain", ⟨[], none⟩⟩

/-- An application/json response whose body reads two bytes cleanly. -/
def jsonRes : JResponse Nat Nat := ⟨5, "application/json", ⟨[49, 50], none⟩⟩

/-- A concrete json transport whose Result cell holds 0. -/
def tJ : JTransport Nat := ⟨0⟩

/-- Closed instance of the pass-through half of
c8_decode_iff_json_content_type on a text/plain response. -/
theorem c8_witness :
    idParse plainRes.contentType ≠ some "application/json"
    ∧ JTransport.RoundTrip idParse countUnmarshal tJ plainRes none
        = (plainRes, none, tJ.Result) :=
  ⟨by decide,
   (c8_decode_iff_json_content_type idParse countUnmarshal tJ plainRes).1 (by decide)⟩

/-- C10: on the application/json path with a clean body read, the
response handed back carries a body holding exactly the bytes the base
transport's body yielded, with no read error left: decoding into Result
does not consume the caller-visible body. -/
theorem c10_body_bytes_preserved {ρ Err V : Type}
    (parse : String → Option String) (unmarshal : List UInt8 → V → V × Option Err)
    (t : JTransport V) (res : JResponse ρ Err)
    (hct : parse res.contentType = some "application/json")
    (hre : res.body.readErr = none) :
    (JTransport.RoundTrip parse unmarshal t res none).1.body
      = ⟨res.body.bytes, none⟩ := by
  simp [JTransport.RoundTrip, hct, hre]

/-- Closed instance of c10_body_bytes_preserved on the two-byte
application/json response. -/
theorem c10_witness :
    idParse jsonRes.contentType = some "application/json"
    ∧ jsonRes.body.readErr = none
    ∧ (JTransport.RoundTrip idParse countUnmarshal tJ jsonRes none).1.body
        = ⟨jsonRes.body.bytes, none⟩ :=
  ⟨rfl, rfl, c10_body_bytes_preserved idParse countUnmarshal tJ jsonRes rfl rfl⟩

end HttpJson

